import Mathlib

/-!
Shallow embedding of the `ocl` repository's async read/write vector
(`src/async/rw_vec.rs`) and kernel argument machinery (`src/kernel.rs`).

External collaborators (the `qutex` crate, OpenCL events, `futures`
one-shot channels) are modelled abstractly: event queries, callback
registration and channel polls are supplied by an environment record,
and observable calls are recorded in an effect trace.
-/

namespace Ocl

/-- Error values (`OclError` / `AsyncError`), modelled as their message strings. -/
abbrev Err := String

/-- The `futures` 0.1 `Async` poll outcome. -/
inductive Async (α : Type) where
  | Ready : α → Async α
  | NotReady : Async α
deriving DecidableEq

/-- A queued access request (qutex `Request`); carries its one-shot sender id. -/
structure Request where
  sender : Nat
deriving DecidableEq

/-- The shared qutex state: the payload plus the FIFO of pending requests and
whether a holder is currently active. -/
structure Qutex (α : Type) where
  data : α
  queue : List Request
  locked : Bool
deriving DecidableEq

/-- Modelled from the spec: the `qutex` crate's `process_queue` is not part of
this repository; per spec section 4.1 it promotes the head of the FIFO when no
holder is active, notifying that request's sender (returned as the list of
fired sender ids). -/
def Qutex.processQueue (q : Qutex α) : Qutex α × List Nat :=
  if q.locked then (q, [])
  else
    match q.queue with
    | [] => (q, [])
    | r :: rest => ({ q with queue := rest, locked := true }, [r.sender])

/-- Modelled from the spec: the `qutex` crate's `unlock`/`release` is not part
of this repository; per spec section 4.1 it marks the current holder done and
promotes the new head of the queue, if any. -/
def Qutex.unlockQ (q : Qutex α) : Qutex α × List Nat :=
  Qutex.processQueue { q with locked := false }

/-- Modelled from the spec: the `qutex` crate's `push_request` is not part of
this repository; per spec section 3 a request is "enqueued into the
container's internal FIFO". -/
def Qutex.pushRequest (q : Qutex α) (r : Request) : Qutex α :=
  { q with queue := q.queue ++ [r] }

/-- `RwVec<T>`: a wrapper around `Qutex<Vec<T>>`. -/
structure RwVec (α : Type) where
  qutex : Qutex (List α)
deriving DecidableEq

/-- `RwVec` dereferences to its qutex; `unlock` is the qutex unlock. -/
def RwVec.unlock (rv : RwVec α) : Qutex (List α) × List Nat :=
  rv.qutex.unlockQ

/-- `RwGuard<T>`: holds the container while exclusive access is active. -/
structure RwGuard (α : Type) where
  rw_vec : RwVec α
deriving DecidableEq

/-- `Deref for RwGuard`: read access to the payload vector behind the lock. -/
def RwGuard.deref (g : RwGuard α) : List α :=
  g.rw_vec.qutex.data

/-- `DerefMut for RwGuard`: write access to the payload vector, modelled as a
functional update of the vector behind the lock. -/
def RwGuard.derefMutSet (g : RwGuard α) (v : List α) : RwGuard α :=
  { rw_vec := { qutex := { g.rw_vec.qutex with data := v } } }

/-- Observable calls made by guard scopes: the `Drop` impl's `unlock`, and
arbitrary other body effects. -/
inductive GEffect where
  | unlock
  | other : Nat → GEffect
deriving DecidableEq

/-- Result of running a guard-holding scope to its end. -/
structure ScopeOut (α β : Type) where
  res : Except Err β
  qutex : Qutex (List α)
  notified : List Nat
  trace : List GEffect

/-- A scope that holds an `RwGuard`: the body runs (finishing normally with
`.ok` or leaving early with `.error`, emitting its own effects), and on scope
exit `Drop for RwGuard` runs unconditionally, calling the container's
`unlock` — this is `impl Drop for RwGuard` in `rw_vec.rs`. -/
def runWithGuard (g : RwGuard α) (body : Except Err β × List GEffect) : ScopeOut α β :=
  let u := g.rw_vec.unlock
  { res := body.1, qutex := u.1, notified := u.2, trace := body.2 ++ [GEffect.unlock] }

/-- Observable calls made during one `PendingRwGuard::poll`. -/
inductive Effect where
  | processQueue
  | isCompleteQuery
  | setCallbackReg : Nat → Effect
  | rxPollQuery
deriving DecidableEq

/-- `PendingRwGuard<T>`: the container handle (consumed on resolution), the
one-shot receiver id, the external wait event id, the minted trigger event id,
and the captured payload length. -/
structure PendingRwGuard (α : Type) where
  rw_vec : Option (RwVec α)
  rx : Nat
  wait_event : Nat
  trigger_event : Nat
  len : Nat
deriving DecidableEq

/-- Equality of `Except` values is decidable when it is on both components. -/
instance {ε α : Type} [DecidableEq ε] [DecidableEq α] : DecidableEq (Except ε α) := fun a b =>
  match a, b with
  | .error x, .error y =>
    if h : x = y then .isTrue (by rw [h])
    else .isFalse (fun hc => h (by injection hc))
  | .ok x, .ok y =>
    if h : x = y then .isTrue (by rw [h])
    else .isFalse (fun hc => h (by injection hc))
  | .error _, .ok _ => .isFalse (fun hc => Except.noConfusion hc)
  | .ok _, .error _ => .isFalse (fun hc => Except.noConfusion hc)

/-- The external world as seen by one poll: the outcome of
`wait_event.is_complete()`, of `wait_event.set_callback(..)`, and of
`rx.poll()`. -/
structure PollEnv where
  isComplete : Except Err Bool
  setCallback : Except Err Unit
  rxPoll : Except Err (Async Unit)
deriving DecidableEq

/-- Result of one poll: the `Poll<RwGuard<T>, AsyncError>` value, the guard's
state afterwards, and the trace of external calls made. -/
structure PollOut (α : Type) where
  res : Except Err (Async (RwGuard α))
  st : PendingRwGuard α
  trace : List Effect

/-- The error message returned when polling an already-consumed guard. -/
def alreadyCompletedMsg : Err := "PendingRwGuard::poll: Task already completed."

/-- `impl Future for PendingRwGuard::poll` (rw_vec.rs lines 87-106):
if the container handle is still present, call `process_queue`, then query the
wait event; not complete → register the unpark callback and return `NotReady`
(errors from the query or the registration propagate via `?`); complete →
poll the one-shot receiver, taking the container handle and producing an
`RwGuard` only when the receiver is ready. With the handle absent the poll
fails with the "already completed" message. -/
def PendingRwGuard.poll (g : PendingRwGuard α) (env : PollEnv) : PollOut α :=
  match g.rw_vec with
  | some rv =>
    match env.isComplete with
    | .error e => ⟨.error e, g, [.processQueue, .isCompleteQuery]⟩
    | .ok false =>
      match env.setCallback with
      | .error e =>
          ⟨.error e, g, [.processQueue, .isCompleteQuery, .setCallbackReg g.wait_event]⟩
      | .ok _ =>
          ⟨.ok .NotReady, g, [.processQueue, .isCompleteQuery, .setCallbackReg g.wait_event]⟩
    | .ok true =>
      match env.rxPoll with
      | .ok (.Ready _) =>
          ⟨.ok (.Ready ⟨rv⟩), { g with rw_vec := none },
           [.processQueue, .isCompleteQuery, .rxPollQuery]⟩
      | .ok .NotReady =>
          ⟨.ok .NotReady, g, [.processQueue, .isCompleteQuery, .rxPollQuery]⟩
      | .error e =>
          ⟨.error e, g, [.processQueue, .isCompleteQuery, .rxPollQuery]⟩
  | none => ⟨.error alreadyCompletedMsg, g, []⟩

/-- Repeated polling of one `PendingRwGuard`, each step under its own
environment; returns the list of poll results and the final state. -/
def pollSeq (g : PendingRwGuard α) (envs : List PollEnv) :
    List (Except Err (Async (RwGuard α))) × PendingRwGuard α :=
  match envs with
  | [] => ([], g)
  | e :: es =>
    let o := g.poll e
    let r := pollSeq o.st es
    (o.res :: r.1, r.2)

/-- The external world as seen by `PendingRwGuard::new`: the outcome of
`wait_event.context()` and of `Event::user(&ctx)`. -/
structure NewEnv where
  context : Except Err Nat
  userEvent : Nat → Except Err Nat

/-- `PendingRwGuard::new` (rw_vec.rs lines 52-63): mint a user event from the
wait event's context (either step may fail), capture the payload length, and
store the container handle, receiver and events. -/
def PendingRwGuard.new (rw_vec : RwVec α) (rx : Nat) (wait_event : Nat)
    (env : NewEnv) : Except Err (PendingRwGuard α) :=
  match env.context with
  | .error e => .error e
  | .ok ctx =>
    match env.userEvent ctx with
    | .error e => .error e
    | .ok trig =>
      .ok { rw_vec := some rw_vec, rx := rx, wait_event := wait_event,
            trigger_event := trig, len := rw_vec.qutex.data.length }

/-- `RwVec::lock_pending_event` (rw_vec.rs lines 123-127): create a one-shot
channel (the paired ids `tx`, `rx` are supplied), push the request onto the
qutex, then construct the `PendingRwGuard` over a clone of the container.
Returns the construction result together with the container state after the
push. -/
def RwVec.lock_pending_event (rv : RwVec α) (wait_event : Nat) (tx rx : Nat)
    (env : NewEnv) : Except Err (PendingRwGuard α) × RwVec α :=
  let rv2 : RwVec α := ⟨rv.qutex.pushRequest ⟨tx⟩⟩
  (PendingRwGuard.new rv2 rx wait_event env, rv2)

/-- `WorkSize` dimensions (opaque to the claims; only carried by `Kernel`). -/
inductive WorkSize where
  | Unspecified
  | OneDim : Nat → WorkSize
  | TwoDims : Nat → Nat → WorkSize
  | ThreeDims : Nat → Nat → Nat → WorkSize
deriving DecidableEq

/-- `u32` modulus for the `arg_index` field. -/
def u32Mod : Nat := 2 ^ 32

/-- `mem::size_of::<cl_mem>()`, a pointer-sized buffer handle. -/
def clMemSize : Nat := 8

/-- `Kernel` (kernel.rs lines 9-19); opaque handles are modelled as `Nat`,
and `setCalls` is the ghost trace of `clSetKernelArg` invocations as
`(arg_index, arg_size)` pairs in call order. -/
structure Kernel where
  kernel : Nat
  name : String
  arg_index : Nat
  named_args : List (String × Nat)
  arg_count : Nat
  command_queue : Nat
  gwo : WorkSize
  gws : WorkSize
  lws : WorkSize
  setCalls : List (Nat × Nat)
deriving DecidableEq

/-- `Kernel::new` (kernel.rs lines 22-36). -/
def Kernel.new (kernel : Nat) (name : String) (command_queue : Nat)
    (gws : WorkSize) : Kernel :=
  { kernel := kernel, name := name, arg_index := 0, named_args := [],
    arg_count := 0, command_queue := command_queue,
    gwo := WorkSize.Unspecified, gws := gws, lws := WorkSize.Unspecified,
    setCalls := [] }

/-- `Kernel::set_kernel_arg` (kernel.rs lines 151-163): an FFI call to
`clSetKernelArg`, recorded in the ghost trace. -/
def Kernel.set_kernel_arg (k : Kernel) (arg_index arg_size : Nat) : Kernel :=
  { k with setCalls := k.setCalls ++ [(arg_index, arg_size)] }

/-- `Kernel::new_kernel_arg` (kernel.rs lines 119-124): sets the argument at
the current `arg_index`, increments `arg_index` (a `u32`), and returns the
index used. -/
def Kernel.new_kernel_arg (k : Kernel) (arg_size : Nat) : Kernel × Nat :=
  let a_i := k.arg_index
  let k2 := k.set_kernel_arg a_i arg_size
  ({ k2 with arg_index := (k2.arg_index + 1) % u32Mod }, a_i)

/-- `Kernel::new_arg_envoy` (kernel.rs lines 85-95): buffer args have size
`size_of::<cl_mem>()`. -/
def Kernel.new_arg_envoy (k : Kernel) : Kernel × Nat :=
  k.new_kernel_arg clMemSize

/-- `Kernel::new_arg_scalar` (kernel.rs lines 97-108): scalar args have size
`size_of::<T>()`, supplied as `tsize`. -/
def Kernel.new_arg_scalar (k : Kernel) (tsize : Nat) : Kernel × Nat :=
  k.new_kernel_arg tsize

/-- `Kernel::new_arg_local` (kernel.rs lines 110-116): local args have size
`size_of::<T>() * length`. -/
def Kernel.new_arg_local (k : Kernel) (tsize length : Nat) : Kernel × Nat :=
  k.new_kernel_arg (tsize * length)

/-- `Kernel::arg_env` (kernel.rs lines 56-59). -/
def Kernel.arg_env (k : Kernel) : Kernel :=
  k.new_arg_envoy.1

/-- `Kernel::arg_scl` (kernel.rs lines 61-64). -/
def Kernel.arg_scl (k : Kernel) (tsize : Nat) : Kernel :=
  (k.new_arg_scalar tsize).1

/-- `Kernel::arg_scl_named` (kernel.rs lines 66-70): adds the scalar arg and
maps `name` to the returned index (`HashMap::insert`, overwriting any earlier
binding; modelled by prepending with first-match lookup). -/
def Kernel.arg_scl_named (k : Kernel) (name : String) (tsize : Nat) : Kernel :=
  let r := k.new_arg_scalar tsize
  { r.1 with named_args := (name, r.2) :: r.1.named_args }

/-- `Kernel::arg_env_named` (kernel.rs lines 72-77). -/
def Kernel.arg_env_named (k : Kernel) (name : String) : Kernel :=
  let r := k.new_arg_envoy
  { r.1 with named_args := (name, r.2) :: r.1.named_args }

/-- `Kernel::arg_loc` (kernel.rs lines 79-82). -/
def Kernel.arg_loc (k : Kernel) (tsize length : Nat) : Kernel :=
  (k.new_arg_local tsize length).1

/-- `Kernel::set_arg_scl_named` (kernel.rs lines 127-136): looks the name up
(`HashMap` indexing panics on a missing key, modelled by `none`) and sets the
argument at the stored index. -/
def Kernel.set_arg_scl_named (k : Kernel) (name : String) (tsize : Nat) :
    Option Kernel :=
  match k.named_args.lookup name with
  | some idx => some (k.set_kernel_arg idx tsize)
  | none => none

/-- `Kernel::set_arg_env_named` (kernel.rs lines 139-149). -/
def Kernel.set_arg_env_named (k : Kernel) (name : String) : Option Kernel :=
  match k.named_args.lookup name with
  | some idx => some (k.set_kernel_arg idx clMemSize)
  | none => none

/-- One argument-adding builder call on a `Kernel`. -/
inductive KOp where
  | argScl : Nat → KOp
  | argEnv : KOp
  | argLoc : Nat → Nat → KOp
  | argSclNamed : String → Nat → KOp
  | argEnvNamed : String → KOp
deriving DecidableEq

/-- Apply one builder call. -/
def Kernel.applyOp (k : Kernel) (op : KOp) : Kernel :=
  match op with
  | .argScl t => k.arg_scl t
  | .argEnv => k.arg_env
  | .argLoc t l => k.arg_loc t l
  | .argSclNamed n t => k.arg_scl_named n t
  | .argEnvNamed n => k.arg_env_named n

/-- Apply a sequence of builder calls, left to right. -/
def Kernel.applyOps (k : Kernel) (ops : List KOp) : Kernel :=
  ops.foldl Kernel.applyOp k

/-! Helper lemmas about polling. -/

lemma poll_none {α : Type} (g : PendingRwGuard α) (env : PollEnv)
    (h : g.rw_vec = none) :
    g.poll env = ⟨.error alreadyCompletedMsg, g, []⟩ := by
  obtain ⟨rw, rx0, we, te, l⟩ := g
  change rw = none at h
  subst h
  rfl

lemma pollSeq_none {α : Type} (envs : List PollEnv) (g : PendingRwGuard α)
    (h : g.rw_vec = none) :
    (pollSeq g envs).1 = envs.map (fun _ => Except.error alreadyCompletedMsg) ∧
    (pollSeq g envs).2 = g := by
  induction envs generalizing g with
  | nil => exact ⟨rfl, rfl⟩
  | cons e es ih =>
    have hp : g.poll e = ⟨.error alreadyCompletedMsg, g, []⟩ := poll_none g e h
    simp [pollSeq, hp, (ih g h).1, (ih g h).2]

lemma poll_preserves_meta {α : Type} (g : PendingRwGuard α) (env : PollEnv) :
    (g.poll env).st.len = g.len ∧
    (g.poll env).st.trigger_event = g.trigger_event := by
  obtain ⟨rw, rx0, we, te, l⟩ := g
  obtain ⟨ic, scb, rxp⟩ := env
  rcases rw with _ | rv
  · exact ⟨rfl, rfl⟩
  · rcases ic with e1 | b
    · exact ⟨rfl, rfl⟩
    · rcases b
      · rcases scb with e2 | u
        · exact ⟨rfl, rfl⟩
        · exact ⟨rfl, rfl⟩
      · rcases rxp with e3 | a
        · exact ⟨rfl, rfl⟩
        · rcases a with u | _
          · exact ⟨rfl, rfl⟩
          · exact ⟨rfl, rfl⟩

lemma pollSeq_preserves_meta {α : Type} (envs : List PollEnv)
    (g : PendingRwGuard α) :
    (pollSeq g envs).2.len = g.len ∧
    (pollSeq g envs).2.trigger_event = g.trigger_event := by
  induction envs generalizing g with
  | nil => exact ⟨rfl, rfl⟩
  | cons e es ih =>
    have h1 := poll_preserves_meta g e
    have h2 := ih (g.poll e).st
    exact ⟨by simp [pollSeq, h2.1, h1.1], by simp [pollSeq, h2.2, h1.2]⟩

/-! Concrete sample values used by the witnesses. -/

def sampleRwVec : RwVec Nat := ⟨{ data := [5], queue := [], locked := true }⟩

def samplePending : PendingRwGuard Nat :=
  { rw_vec := some sampleRwVec, rx := 0, wait_event := 1, trigger_event := 2,
    len := 1 }

def envAllReady : PollEnv :=
  { isComplete := .ok true, setCallback := .ok (), rxPoll := .ok (.Ready ()) }

def envEventErr : PollEnv :=
  { isComplete := .error "event error", setCallback := .ok (),
    rxPoll := .ok (.Ready ()) }

def envNotComplete : PollEnv :=
  { isComplete := .ok false, setCallback := .ok (), rxPoll := .ok .NotReady }

def sampleGuard : RwGuard Nat :=
  ⟨⟨{ data := [5], queue := [{ sender := 3 }], locked := true }⟩⟩

/-- C1: for every `RwGuard`, dropping it calls the container's unlock exactly
once, on every exit path (normal scope exit or early error exit), releasing
exclusive access so the next queued request can be promoted; the caller never
calls release explicitly. -/
theorem rwguard_drop_unlocks_once {α β : Type} (g : RwGuard α)
    (body : Except Err β × List GEffect) (req : Request) (rest : List Request)
    (hb : body.2.count GEffect.unlock = 0)
    (hq : g.rw_vec.qutex.queue = req :: rest) :
    (runWithGuard g body).trace.count GEffect.unlock = 1 ∧
    (runWithGuard g body).res = body.1 ∧
    (runWithGuard g body).notified = [req.sender] ∧
    (runWithGuard g body).qutex.queue = rest ∧
    (runWithGuard g body).qutex.locked = true := by
  unfold runWithGuard RwVec.unlock Qutex.unlockQ Qutex.processQueue
  simp [hq, List.count_append, hb]

theorem rwguard_drop_unlocks_once_witness :
    ([GEffect.other 0].count GEffect.unlock = 0 ∧
     sampleGuard.rw_vec.qutex.queue = [{ sender := 3 }]) ∧
    ((runWithGuard sampleGuard ((.error "early exit" : Except Err Nat),
        [GEffect.other 0])).trace.count GEffect.unlock = 1 ∧
     (runWithGuard sampleGuard ((.error "early exit" : Except Err Nat),
        [GEffect.other 0])).res = .error "early exit" ∧
     (runWithGuard sampleGuard ((.error "early exit" : Except Err Nat),
        [GEffect.other 0])).notified = [(3 : Nat)] ∧
     (runWithGuard sampleGuard ((.error "early exit" : Except Err Nat),
        [GEffect.other 0])).qutex.queue = [] ∧
     (runWithGuard sampleGuard ((.error "early exit" : Except Err Nat),
        [GEffect.other 0])).qutex.locked = true) :=
  ⟨⟨by decide, rfl⟩,
   rwguard_drop_unlocks_once sampleGuard
     ((.error "early exit" : Except Err Nat), [GEffect.other 0])
     { sender := 3 } [] (by decide) rfl⟩

/-- C2: a `PendingRwGuard` resolves into a Guard at most once: the first poll
in which the event is complete and the channel has fired consumes the stored
container handle and produces the `RwGuard`, and every subsequent poll returns
the terminal "already completed" failure, never a second Guard. -/
theorem pending_guard_resolves_once {α : Type} (g : PendingRwGuard α)
    (rv : RwVec α) (env : PollEnv) (hrw : g.rw_vec = some rv)
    (hic : env.isComplete = .ok true) (hrx : env.rxPoll = .ok (.Ready ())) :
    (g.poll env).res = .ok (.Ready ⟨rv⟩) ∧
    (g.poll env).st.rw_vec = none ∧
    ∀ envs, (pollSeq (g.poll env).st envs).1 =
      envs.map (fun _ => Except.error alreadyCompletedMsg) := by
  obtain ⟨rw, rx0, we, te, l⟩ := g
  change rw = some rv at hrw
  subst hrw
  obtain ⟨ic, scb, rxp⟩ := env
  change ic = Except.ok true at hic
  subst hic
  change rxp = Except.ok (Async.Ready ()) at hrx
  subst hrx
  exact ⟨rfl, rfl, fun envs => (pollSeq_none envs _ rfl).1⟩

theorem pending_guard_resolves_once_witness :
    (samplePending.rw_vec = some sampleRwVec ∧
     envAllReady.isComplete = .ok true ∧
     envAllReady.rxPoll = .ok (.Ready ())) ∧
    ((samplePending.poll envAllReady).res = .ok (.Ready ⟨sampleRwVec⟩) ∧
     (samplePending.poll envAllReady).st.rw_vec = none ∧
     (pollSeq (samplePending.poll envAllReady).st [envAllReady, envEventErr]).1 =
       [envAllReady, envEventErr].map
         (fun _ => Except.error alreadyCompletedMsg)) :=
  ⟨⟨rfl, rfl, rfl⟩,
   (pending_guard_resolves_once samplePending sampleRwVec envAllReady
      rfl rfl rfl).1,
   (pending_guard_resolves_once samplePending sampleRwVec envAllReady
      rfl rfl rfl).2.1,
   (pending_guard_resolves_once samplePending sampleRwVec envAllReady
      rfl rfl rfl).2.2 [envAllReady, envEventErr]⟩

/-- C3 counterexample: the claim says a failed poll leaves the guard in a
terminal Failed state with every later poll returning "already completed"; on
the code, a poll that fails with an event error leaves the container handle in
place, and the very next poll re-attempts resolution and yields a Guard. -/
theorem pending_guard_failed_not_terminal_cex :
    (samplePending.poll envEventErr).res = .error "event error" ∧
    ((samplePending.poll envEventErr).st.poll envAllReady).res ≠
      Except.error alreadyCompletedMsg ∧
    ((samplePending.poll envEventErr).st.poll envAllReady).res =
      .ok (.Ready ⟨sampleRwVec⟩) := by
  refine ⟨rfl, ?_, rfl⟩
  decide

/-- C3 (amended): if a poll of a not-yet-consumed `PendingRwGuard` returns a
failure (event query error, callback registration error, or channel error),
the guard's state is unchanged — the container handle remains in place and a
later poll re-attempts resolution; the "already completed" error only arises
after a successful resolution. -/
theorem pending_guard_error_leaves_state {α : Type} (g : PendingRwGuard α)
    (rv : RwVec α) (env : PollEnv) (e : Err) (hrw : g.rw_vec = some rv)
    (herr : (g.poll env).res = .error e) :
    (g.poll env).st = g := by
  obtain ⟨rw, rx0, we, te, l⟩ := g
  change rw = some rv at hrw
  subst hrw
  obtain ⟨ic, scb, rxp⟩ := env
  rcases ic with e1 | b
  · rfl
  · rcases b
    · rcases scb with e2 | u
      · rfl
      · rfl
    · rcases rxp with e3 | a
      · rfl
      · rcases a with u | _
        · exact nomatch herr
        · rfl

theorem pending_guard_error_leaves_state_witness :
    (samplePending.rw_vec = some sampleRwVec ∧
     (samplePending.poll envEventErr).res = .error "event error") ∧
    (samplePending.poll envEventErr).st = samplePending :=
  ⟨⟨rfl, rfl⟩,
   pending_guard_error_leaves_state samplePending sampleRwVec envEventErr
     "event error" rfl rfl⟩

/-- C4: every poll of a not-yet-consumed `PendingRwGuard` calls the
container's `process_queue` first, before the external event is checked; and
if the event reports not complete (and callback registration succeeds), the
poll registers the unpark callback on that event and returns not-ready,
producing no Guard and leaving the container handle in place. -/
theorem poll_process_queue_first {α : Type} (g : PendingRwGuard α)
    (rv : RwVec α) (env : PollEnv) (hrw : g.rw_vec = some rv) :
    (g.poll env).trace.take 2 = [Effect.processQueue, Effect.isCompleteQuery] ∧
    (env.isComplete = .ok false → env.setCallback = .ok () →
      (g.poll env).res = .ok .NotReady ∧
      Effect.setCallbackReg g.wait_event ∈ (g.poll env).trace ∧
      (g.poll env).st = g) := by
  obtain ⟨rw, rx0, we, te, l⟩ := g
  change rw = some rv at hrw
  subst hrw
  obtain ⟨ic, scb, rxp⟩ := env
  constructor
  · rcases ic with e1 | b
    · rfl
    · rcases b
      · rcases scb with e2 | u
        · rfl
        · rfl
      · rcases rxp with e3 | a
        · rfl
        · rcases a with u | _
          · rfl
          · rfl
  · intro hic hscb
    change ic = Except.ok false at hic
    subst hic
    change scb = Except.ok () at hscb
    subst hscb
    refine ⟨rfl, ?_, rfl⟩
    show Effect.setCallbackReg we ∈
      [Effect.processQueue, Effect.isCompleteQuery, Effect.setCallbackReg we]
    simp

theorem poll_process_queue_first_witness :
    (samplePending.rw_vec = some sampleRwVec ∧
     envNotComplete.isComplete = .ok false ∧
     envNotComplete.setCallback = .ok ()) ∧
    ((samplePending.poll envNotComplete).trace.take 2 =
       [Effect.processQueue, Effect.isCompleteQuery] ∧
     (samplePending.poll envNotComplete).res = .ok .NotReady ∧
     Effect.setCallbackReg samplePending.wait_event ∈
       (samplePending.poll envNotComplete).trace ∧
     (samplePending.poll envNotComplete).st = samplePending) :=
  ⟨⟨rfl, rfl, rfl⟩,
   (poll_process_queue_first samplePending sampleRwVec envNotComplete rfl).1,
   (poll_process_queue_first samplePending sampleRwVec envNotComplete rfl).2
     rfl rfl⟩

/-- C5: when a poll of a not-yet-consumed `PendingRwGuard` finds the event
complete, it polls the notification channel: fired → an `RwGuard` whose deref
reads and whose mutable deref writes the payload vector; not fired →
not-ready; errored → failure. -/
theorem poll_channel_cases {α : Type} (g : PendingRwGuard α) (rv : RwVec α)
    (env : PollEnv) (hrw : g.rw_vec = some rv)
    (hic : env.isComplete = .ok true) :
    (env.rxPoll = .ok (.Ready ()) →
      (g.poll env).res = .ok (.Ready ⟨rv⟩) ∧
      RwGuard.deref (⟨rv⟩ : RwGuard α) = rv.qutex.data ∧
      ∀ v, ((⟨rv⟩ : RwGuard α).derefMutSet v).deref = v) ∧
    (env.rxPoll = .ok .NotReady → (g.poll env).res = .ok .NotReady) ∧
    (∀ e, env.rxPoll = .error e → (g.poll env).res = .error e) := by
  obtain ⟨rw, rx0, we, te, l⟩ := g
  change rw = some rv at hrw
  subst hrw
  obtain ⟨ic, scb, rxp⟩ := env
  change ic = Except.ok true at hic
  subst hic
  refine ⟨?_, ?_, ?_⟩
  · intro hrx
    change rxp = Except.ok (Async.Ready ()) at hrx
    subst hrx
    exact ⟨rfl, rfl, fun v => rfl⟩
  · intro hrx
    change rxp = Except.ok Async.NotReady at hrx
    subst hrx
    rfl
  · intro e hrx
    change rxp = Except.error e at hrx
    subst hrx
    rfl

theorem poll_channel_cases_witness :
    (samplePending.rw_vec = some sampleRwVec ∧
     envAllReady.isComplete = .ok true ∧
     envAllReady.rxPoll = .ok (.Ready ())) ∧
    ((samplePending.poll envAllReady).res = .ok (.Ready ⟨sampleRwVec⟩) ∧
     RwGuard.deref (⟨sampleRwVec⟩ : RwGuard Nat) = sampleRwVec.qutex.data ∧
     ((⟨sampleRwVec⟩ : RwGuard Nat).derefMutSet [9]).deref = [9]) :=
  ⟨⟨rfl, rfl, rfl⟩,
   ((poll_channel_cases samplePending sampleRwVec envAllReady rfl rfl).1
      rfl).1,
   ((poll_channel_cases samplePending sampleRwVec envAllReady rfl rfl).1
      rfl).2.1,
   ((poll_channel_cases samplePending sampleRwVec envAllReady rfl rfl).1
      rfl).2.2 [9]⟩

/-- C6: every resolution error — event `is_complete` failure, callback
registration failure, or notification-channel error — is returned as the
poll's error value with no internal retry (each external query appears at most
once in the poll's trace), and a poll returning an error never also yields a
Guard. -/
theorem poll_errors_propagate {α : Type} (g : PendingRwGuard α) (rv : RwVec α)
    (env : PollEnv) (hrw : g.rw_vec = some rv) :
    (∀ e, env.isComplete = .error e → (g.poll env).res = .error e) ∧
    (∀ e, env.isComplete = .ok false → env.setCallback = .error e →
      (g.poll env).res = .error e) ∧
    (∀ e, env.isComplete = .ok true → env.rxPoll = .error e →
      (g.poll env).res = .error e) ∧
    (∀ e g', (g.poll env).res = .error e →
      (g.poll env).res ≠ .ok (.Ready g')) ∧
    (g.poll env).trace.count Effect.isCompleteQuery ≤ 1 ∧
    (g.poll env).trace.count Effect.rxPollQuery ≤ 1 ∧
    (g.poll env).trace.count (Effect.setCallbackReg g.wait_event) ≤ 1 := by
  obtain ⟨rw, rx0, we, te, l⟩ := g
  change rw = some rv at hrw
  subst hrw
  obtain ⟨ic, scb, rxp⟩ := env
  refine ⟨?_, ?_, ?_, ?_, ?_⟩
  · intro e hic
    change ic = Except.error e at hic
    subst hic
    rfl
  · intro e hic hscb
    change ic = Except.ok false at hic
    subst hic
    change scb = Except.error e at hscb
    subst hscb
    rfl
  · intro e hic hrx
    change ic = Except.ok true at hic
    subst hic
    change rxp = Except.error e at hrx
    subst hrx
    rfl
  · intro e g' herr hok
    exact nomatch herr.symm.trans hok
  · rcases ic with e1 | b
    · exact ⟨by simp [PendingRwGuard.poll, List.count_cons],
        by simp [PendingRwGuard.poll, List.count_cons],
        by simp [PendingRwGuard.poll, List.count_cons]⟩
    · rcases b
      · rcases scb with e2 | u
        · exact ⟨by simp [PendingRwGuard.poll, List.count_cons],
        by simp [PendingRwGuard.poll, List.count_cons],
        by simp [PendingRwGuard.poll, List.count_cons]⟩
        · exact ⟨by simp [PendingRwGuard.poll, List.count_cons],
        by simp [PendingRwGuard.poll, List.count_cons],
        by simp [PendingRwGuard.poll, List.count_cons]⟩
      · rcases rxp with e3 | a
        · exact ⟨by simp [PendingRwGuard.poll, List.count_cons],
        by simp [PendingRwGuard.poll, List.count_cons],
        by simp [PendingRwGuard.poll, List.count_cons]⟩
        · rcases a with u | _
          · exact ⟨by simp [PendingRwGuard.poll, List.count_cons],
        by simp [PendingRwGuard.poll, List.count_cons],
        by simp [PendingRwGuard.poll, List.count_cons]⟩
          · exact ⟨by simp [PendingRwGuard.poll, List.count_cons],
        by simp [PendingRwGuard.poll, List.count_cons],
        by simp [PendingRwGuard.poll, List.count_cons]⟩

theorem poll_errors_propagate_witness :
    (samplePending.rw_vec = some sampleRwVec ∧
     envEventErr.isComplete = .error "event error") ∧
    ((samplePending.poll envEventErr).res = .error "event error" ∧
     (samplePending.poll envEventErr).trace.count Effect.isCompleteQuery ≤ 1 ∧
     (samplePending.poll envEventErr).trace.count Effect.rxPollQuery ≤ 1) :=
  ⟨⟨rfl, rfl⟩,
   (poll_errors_propagate samplePending sampleRwVec envEventErr rfl).1
     "event error" rfl,
   (poll_errors_propagate samplePending sampleRwVec envEventErr
      rfl).2.2.2.2.1,
   (poll_errors_propagate samplePending sampleRwVec envEventErr
      rfl).2.2.2.2.2.1⟩

/-- C7: `PendingRwGuard` construction mints the trigger event from the wait
event's context and captures the payload length at that moment; `len` and
`trigger_event` keep exactly those values under any number of polls, and
construction stores the container unmodified. -/
theorem pending_guard_new_metadata {α : Type} (rv : RwVec α) (rx0 we : Nat)
    (env : NewEnv) (g : PendingRwGuard α)
    (h : PendingRwGuard.new rv rx0 we env = .ok g) :
    g.len = rv.qutex.data.length ∧
    (∃ ctx, env.context = .ok ctx ∧
      env.userEvent ctx = .ok g.trigger_event) ∧
    g.rw_vec = some rv ∧
    ∀ envs, (pollSeq g envs).2.len = g.len ∧
      (pollSeq g envs).2.trigger_event = g.trigger_event := by
  obtain ⟨ectx, ue⟩ := env
  rcases ectx with e | ctx
  · exact nomatch h
  · have h' : (match ue ctx with
      | Except.error e => (Except.error e : Except Err (PendingRwGuard α))
      | Except.ok trig =>
          Except.ok { rw_vec := some rv, rx := rx0, wait_event := we,
                      trigger_event := trig,
                      len := rv.qutex.data.length }) = Except.ok g := h
    rcases hue : ue ctx with e | trig
    · rw [hue] at h'
      exact nomatch h'
    · rw [hue] at h'
      injection h' with h2
      subst h2
      exact ⟨rfl, ⟨ctx, rfl, hue⟩, rfl,
        fun envs => pollSeq_preserves_meta envs _⟩

def sampleNewEnv : NewEnv :=
  { context := .ok 7, userEvent := fun c => .ok (c + 1) }

def sampleConstructed : PendingRwGuard Nat :=
  { rw_vec := some sampleRwVec, rx := 0, wait_event := 1, trigger_event := 8,
    len := 1 }

theorem pending_guard_new_metadata_witness :
    (PendingRwGuard.new sampleRwVec 0 1 sampleNewEnv = .ok sampleConstructed) ∧
    (sampleConstructed.len = sampleRwVec.qutex.data.length ∧
     sampleConstructed.rw_vec = some sampleRwVec ∧
     (pollSeq sampleConstructed [envNotComplete, envAllReady]).2.len =
       sampleConstructed.len ∧
     (pollSeq sampleConstructed
        [envNotComplete, envAllReady]).2.trigger_event =
       sampleConstructed.trigger_event) :=
  ⟨rfl,
   (pending_guard_new_metadata sampleRwVec 0 1 sampleNewEnv sampleConstructed
      rfl).1,
   (pending_guard_new_metadata sampleRwVec 0 1 sampleNewEnv sampleConstructed
      rfl).2.2.1,
   ((pending_guard_new_metadata sampleRwVec 0 1 sampleNewEnv sampleConstructed
       rfl).2.2.2 [envNotComplete, envAllReady]).1,
   ((pending_guard_new_metadata sampleRwVec 0 1 sampleNewEnv sampleConstructed
       rfl).2.2.2 [envNotComplete, envAllReady]).2⟩

/-- C8: `lock_pending_event` pushes the request onto the qutex's queue before
constructing the `PendingRwGuard`, so when construction fails the function
returns the error while the request remains enqueued — the enqueue is not
rolled back. -/
theorem lock_pending_event_keeps_request {α : Type} (rv : RwVec α)
    (we tx rx0 : Nat) (env : NewEnv) (e : Err)
    (hfail : PendingRwGuard.new (⟨rv.qutex.pushRequest ⟨tx⟩⟩ : RwVec α) rx0 we
      env = .error e) :
    (rv.lock_pending_event we tx rx0 env).1 = .error e ∧
    (rv.lock_pending_event we tx rx0 env).2.qutex.queue =
      rv.qutex.queue ++ [⟨tx⟩] :=
  ⟨hfail, rfl⟩

def sampleBadEnv : NewEnv :=
  { context := .error "no context", userEvent := fun _ => .error "unused" }

theorem lock_pending_event_keeps_request_witness :
    (PendingRwGuard.new (⟨sampleRwVec.qutex.pushRequest ⟨4⟩⟩ : RwVec Nat) 5 1
       sampleBadEnv = .error "no context") ∧
    ((sampleRwVec.lock_pending_event 1 4 5 sampleBadEnv).1 =
       .error "no context" ∧
     (sampleRwVec.lock_pending_event 1 4 5 sampleBadEnv).2.qutex.queue =
       sampleRwVec.qutex.queue ++ [(⟨4⟩ : Request)]) :=
  ⟨rfl,
   lock_pending_event_keeps_request sampleRwVec 1 4 5 sampleBadEnv
     "no context" rfl⟩

/-! Helper lemmas about `Kernel` builder calls. -/

lemma u32Mod_pos : 0 < u32Mod :=
  pow_pos (by norm_num) 32

lemma applyOp_arg_count (k : Kernel) (op : KOp) :
    (k.applyOp op).arg_count = k.arg_count := by
  rcases op <;> rfl

lemma applyOp_arg_index (k : Kernel) (op : KOp) :
    (k.applyOp op).arg_index = (k.arg_index + 1) % u32Mod := by
  rcases op <;> rfl

lemma applyOp_setCalls_fst (k : Kernel) (op : KOp) :
    ((k.applyOp op).setCalls).map Prod.fst =
      k.setCalls.map Prod.fst ++ [k.arg_index] := by
  rcases op <;>
    simp [Kernel.applyOp, Kernel.arg_scl, Kernel.arg_env, Kernel.arg_loc,
      Kernel.arg_scl_named, Kernel.arg_env_named, Kernel.new_arg_scalar,
      Kernel.new_arg_envoy, Kernel.new_arg_local, Kernel.new_kernel_arg,
      Kernel.set_kernel_arg]

lemma applyOps_cons (k : Kernel) (op : KOp) (ops : List KOp) :
    k.applyOps (op :: ops) = (k.applyOp op).applyOps ops :=
  rfl

lemma applyOps_arg_count (ops : List KOp) (k : Kernel) :
    (k.applyOps ops).arg_count = k.arg_count := by
  induction ops generalizing k with
  | nil => rfl
  | cons op ops ih => rw [applyOps_cons, ih, applyOp_arg_count]

lemma applyOps_arg_index (ops : List KOp) (k : Kernel)
    (h : k.arg_index < u32Mod) :
    (k.applyOps ops).arg_index = (k.arg_index + ops.length) % u32Mod := by
  induction ops generalizing k with
  | nil => simpa using (Nat.mod_eq_of_lt h).symm
  | cons op ops ih =>
    have h2 : (k.applyOp op).arg_index < u32Mod := by
      rw [applyOp_arg_index]
      exact Nat.mod_lt _ u32Mod_pos
    rw [applyOps_cons, ih _ h2, applyOp_arg_index, Nat.mod_add_mod,
      List.length_cons]
    congr 1
    omega

lemma applyOps_setCalls_fst (ops : List KOp) (k : Kernel)
    (h : k.arg_index < u32Mod) :
    ((k.applyOps ops).setCalls).map Prod.fst =
      k.setCalls.map Prod.fst ++
        (List.range ops.length).map (fun j => (k.arg_index + j) % u32Mod) := by
  induction ops generalizing k with
  | nil => simp [Kernel.applyOps]
  | cons op ops ih =>
    have h2 : (k.applyOp op).arg_index < u32Mod := by
      rw [applyOp_arg_index]
      exact Nat.mod_lt _ u32Mod_pos
    rw [applyOps_cons, ih _ h2, applyOp_setCalls_fst, applyOp_arg_index,
      List.append_assoc]
    congr 1
    have hfun : ((fun j => (k.arg_index + j) % u32Mod) ∘ Nat.succ) =
        (fun j => ((k.arg_index + 1) % u32Mod + j) % u32Mod) := by
      funext j
      show (k.arg_index + (j + 1)) % u32Mod =
        ((k.arg_index + 1) % u32Mod + j) % u32Mod
      rw [Nat.mod_add_mod]
      congr 1
      omega
    rw [List.length_cons, List.range_succ_eq_map, List.map_cons,
      List.map_map, hfun]
    simp [Nat.mod_eq_of_lt h]

/-- C9: `Kernel::arg_count()` returns 0 for every kernel built from
`Kernel::new` by any sequence of argument-adding calls: the `arg_count` field
starts at 0 and no operation increments it — only `arg_index` advances. -/
theorem kernel_arg_count_always_zero (kern : Nat) (nm : String) (cq : Nat)
    (gws : WorkSize) (ops : List KOp) :
    ((Kernel.new kern nm cq gws).applyOps ops).arg_count = 0 ∧
    (Kernel.new kern nm cq gws).arg_count = 0 ∧
    ((Kernel.new kern nm cq gws).applyOps ops).arg_index =
      ops.length % u32Mod :=
  ⟨applyOps_arg_count ops _, rfl, by
    rw [applyOps_arg_index ops _ u32Mod_pos]
    simp [Kernel.new]⟩

/-- C10: `new_kernel_arg` returns the current `arg_index` and increments it,
so on a fresh kernel the arguments receive indices 0, 1, 2, ... in addition
order; a name registered by `arg_scl_named`/`arg_env_named` maps to the index
assigned at registration, and `set_arg_scl_named`/`set_arg_env_named` set the
argument at exactly that index. -/
theorem kernel_arg_indices (kern : Nat) (nm : String) (cq : Nat)
    (gws : WorkSize) (ops : List KOp) (k : Kernel) (name : String)
    (s s2 : Nat) (h : ops.length ≤ u32Mod) :
    ((k.new_kernel_arg s).2 = k.arg_index ∧
     (k.new_kernel_arg s).1.arg_index = (k.arg_index + 1) % u32Mod) ∧
    (((Kernel.new kern nm cq gws).applyOps ops).setCalls.map Prod.fst =
      List.range ops.length) ∧
    ((k.arg_scl_named name s).named_args.lookup name = some k.arg_index ∧
     (k.arg_env_named name).named_args.lookup name = some k.arg_index) ∧
    (∀ idx, k.named_args.lookup name = some idx →
      k.set_arg_scl_named name s2 = some (k.set_kernel_arg idx s2) ∧
      k.set_arg_env_named name = some (k.set_kernel_arg idx clMemSize)) := by
  refine ⟨⟨rfl, rfl⟩, ?_, ⟨?_, ?_⟩, ?_⟩
  · rw [applyOps_setCalls_fst ops _ u32Mod_pos]
    have hz : (Kernel.new kern nm cq gws).arg_index = 0 := rfl
    rw [hz]
    have hmem : ∀ j ∈ List.range ops.length, (0 + j) % u32Mod = j := by
      intro j hj
      rw [Nat.zero_add]
      exact Nat.mod_eq_of_lt (lt_of_lt_of_le (List.mem_range.mp hj) h)
    rw [List.map_congr_left hmem]
    simp [Kernel.new]
  · simp [Kernel.arg_scl_named, Kernel.new_arg_scalar, Kernel.new_kernel_arg,
      Kernel.set_kernel_arg, List.lookup]
  · simp [Kernel.arg_env_named, Kernel.new_arg_envoy, Kernel.new_kernel_arg,
      Kernel.set_kernel_arg, List.lookup]
  · intro idx hidx
    exact ⟨by simp [Kernel.set_arg_scl_named, hidx],
           by simp [Kernel.set_arg_env_named, hidx]⟩

theorem kernel_arg_indices_witness :
    ([KOp.argScl 4, KOp.argSclNamed "alpha" 2, KOp.argEnv].length ≤ u32Mod) ∧
    (((Kernel.new 0 "k" 0 (WorkSize.OneDim 1)).applyOps
        [KOp.argScl 4, KOp.argSclNamed "alpha" 2, KOp.argEnv]).setCalls.map
          Prod.fst =
       List.range 3 ∧
     ((Kernel.new 0 "k" 0 (WorkSize.OneDim 1)).arg_scl_named "alpha"
        2).named_args.lookup "alpha" =
       some (Kernel.new 0 "k" 0 (WorkSize.OneDim 1)).arg_index) :=
  ⟨by norm_num [u32Mod],
   (kernel_arg_indices 0 "k" 0 (WorkSize.OneDim 1)
      [KOp.argScl 4, KOp.argSclNamed "alpha" 2, KOp.argEnv]
      (Kernel.new 0 "k" 0 (WorkSize.OneDim 1)) "alpha" 2 2
      (by norm_num [u32Mod])).2.1,
   (kernel_arg_indices 0 "k" 0 (WorkSize.OneDim 1)
      [KOp.argScl 4, KOp.argSclNamed "alpha" 2, KOp.argEnv]
      (Kernel.new 0 "k" 0 (WorkSize.OneDim 1)) "alpha" 2 2
      (by norm_num [u32Mod])).2.2.1.1⟩

end Ocl
